import Mathlib

/-!
Verification of the RealSenseID firmware-update CLI
(`tools/rsid-fw-update/main.cc`) against its natural-language
specification.  The C++ is shallowly embedded: pure helpers become Lean
functions on `List Char` / `String`, the external world (device queries,
the firmware-image parser, user input, `UpdateModules`) becomes an
environment record of oracles, and `main` becomes a pure function from
that environment to an exit code plus a record of the single
`UpdateModules` call (if any).
-/

/- ## String splitting

`ExtractModuleFromVersion` iterates `std::getline(stream, section, '|')`.
`getline` with a delimiter yields one section per delimiter hit and a
final section only when characters remain after the last delimiter; on an
empty stream it yields nothing.  `getlineSplit` reproduces exactly that.
`splitPipe` is ordinary separator splitting (used by the spec-level
description of the parser, which speaks of "pipe-separated sections"). -/

def getlineSplit : List Char → List (List Char)
  | [] => []
  | c :: cs =>
    if c = '|' then [] :: getlineSplit cs
    else
      match getlineSplit cs with
      | [] => [[c]]
      | a :: as => (c :: a) :: as

def splitPipe : List Char → List (List Char)
  | [] => [[]]
  | c :: cs =>
    if c = '|' then [] :: splitPipe cs
    else
      match splitPipe cs with
      | [] => [[c]]
      | a :: as => (c :: a) :: as

/-- `section.find(module_name) != npos`: the needle occurs as a contiguous
substring of the haystack. -/
def containsSub (needle hay : List Char) : Bool :=
  hay.tails.any (fun t => needle.isPrefixOf t)

/-- `section.substr(section.find(":") + 1)`.  When `find` returns `npos`
(no colon), `npos + 1` wraps to `0`, so the whole section is returned. -/
def afterColon (sec : List Char) : List Char :=
  match sec.dropWhile (fun c => !(c = ':' : Bool)) with
  | [] => sec
  | _ :: rest => rest

def extractAux (name : List Char) : List (List Char) → List Char
  | [] => "Unknown".data
  | sec :: rest => if containsSub name sec then afterColon sec else extractAux name rest

/-- `ExtractModuleFromVersion` from `main.cc`: scan the `getline`
sections of `full_version` for the first one containing `module_name`
and return its suffix after its first colon, else `"Unknown"`. -/
def ExtractModuleFromVersion (module_name full_version : String) : String :=
  ⟨extractAux module_name.data (getlineSplit full_version.data)⟩

def ParseFirmwareVersion (full_version : String) : String :=
  ExtractModuleFromVersion "OPFW:" full_version

def ParseRecognitionVersion (full_version : String) : String :=
  ExtractModuleFromVersion "RECOG:" full_version

/-- Spec-level description of the extraction (claim C10's wording): the
first `'|'`-separated section that contains the searched name as a
substring anywhere in the section; return that section's suffix after its
first colon, the entire section if it has no colon, and `"Unknown"` when
no section matches. -/
def specExtractModule (module_name full_version : String) : String :=
  match (splitPipe full_version.data).find? (fun sec => containsSub module_name.data sec) with
  | some sec => ⟨afterColon sec⟩
  | none => "Unknown"

example : ExtractModuleFromVersion "OPFW:" "OPFW:1.2.3|RECOG:4.5.6" = "1.2.3" := by decide
example : ExtractModuleFromVersion "RECOG:" "OPFW:1.2.3|RECOG:4.5.6" = "4.5.6" := by decide
example : ExtractModuleFromVersion "NONE:" "OPFW:1.2.3|RECOG:4.5.6" = "Unknown" := by decide
example : ParseRecognitionVersion "PRECOG:7|RECOG:8" = "7" := by decide
example : ExtractModuleFromVersion "AB" "xAByz" = "xAByz" := by decide

/- ## WaitForDevice

`WaitForDevice(min, max, port)` first sleeps `min` seconds, then once per
second sleeps, increments its counter and pings, until the device answers
or the counter reaches `max`.  Discrete time: `sched t` is the result the
ping would observe when issued `t` seconds after the call started.  The
model returns the final liveness flag together with the elapsed whole
seconds (the loop counter), recursing on the remaining budget
`max - counter`. -/

def waitLoop (sched : Nat → Bool) (max_wait : Nat) : Nat → Nat → Bool × Nat
  | counter, 0 => (false, counter)
  | counter, fuel + 1 =>
    if counter < max_wait then
      if sched (counter + 1) then (true, counter + 1)
      else waitLoop sched max_wait (counter + 1) fuel
    else (false, counter)

def WaitForDevice (sched : Nat → Bool) (min_wait max_wait : Nat) : Bool × Nat :=
  waitLoop sched max_wait min_wait (max_wait - min_wait)

example : WaitForDevice (fun t => decide (10 ≤ t)) 6 30 = (true, 10) := by decide
example : WaitForDevice (fun _ => false) 6 30 = (false, 30) := by decide
example : WaitForDevice (fun _ => true) 6 30 = (true, 7) := by decide

/- ## Command-line arguments -/

structure CommandLineArgs where
  is_valid : Bool := false
  force_version : Bool := false
  force_full : Bool := false
  is_interactive : Bool := false
  auto_approve : Bool := false
  fw_file : String := ""
  serial_port : String := ""
deriving Repr, DecidableEq

/-- The `for (int i = 1; i < argc; i++)` scan: `--file`/`--port` consume
the following argument when one exists, flag options set their field,
anything else is ignored. -/
def parseLoop : CommandLineArgs → List String → CommandLineArgs
  | args, [] => args
  | args, a :: rest =>
    if a = "--file" then
      match rest with
      | [] => args
      | v :: rest' => parseLoop { args with fw_file := v } rest'
    else if a = "--port" then
      match rest with
      | [] => args
      | v :: rest' => parseLoop { args with serial_port := v } rest'
    else if a = "--force-full" then parseLoop { args with force_full := true } rest
    else if a = "--force-version" then parseLoop { args with force_version := true } rest
    else if a = "--interactive" then parseLoop { args with is_interactive := true } rest
    else if a = "--auto-approve" then parseLoop { args with auto_approve := true } rest
    else parseLoop args rest

/-- `ParseCommandLineArgs(argc, argv)`: `argv` includes the program name
at position 0, so `argc < 2` means no real argument was given. -/
def ParseCommandLineArgs (argv : List String) : CommandLineArgs :=
  if argv.length < 2 then {}
  else
    let args := parseLoop {} (argv.drop 1)
    if args.fw_file = "" then args
    else if args.is_interactive && args.auto_approve then args
    else { args with is_valid := true }

example : (ParseCommandLineArgs ["prog", "--file", "a.bin"]).is_valid = true := by decide
example : (ParseCommandLineArgs ["prog", "--file"]).is_valid = false := by decide
example : (ParseCommandLineArgs ["prog"]).is_valid = false := by decide
example : (ParseCommandLineArgs ["prog", "--file", "a", "--interactive", "--auto-approve"]).is_valid = false := by decide
example : (ParseCommandLineArgs ["prog", "--file", "a", "--port", "COM3"]).serial_port = "COM3" := by decide

/- ## Device metadata and the external world -/

/-- Result statuses of the SDK (`RealSenseID::Status`); the CLI only
distinguishes `Ok` from everything else. -/
inductive Status where
  | Ok
  | Error
  | SerialError
  | SecurityError
deriving Repr, DecidableEq

structure DeviceMetadata where
  serial_number : String := "Unknown"
  fw_version : String := "Unknown"
  recognition_version : String := "Unknown"
deriving Repr, DecidableEq

/-- `FullDeviceInfo` pairs the queried metadata with the device's serial
port (the only field of `DeviceInfo` the CLI uses). -/
structure FullDeviceInfo where
  metadata : DeviceMetadata := {}
  serialPort : String := ""
deriving Repr, DecidableEq

/-- One run's external world: everything `main` observes through the SDK
or the user, as per-run oracles.  `extractFwInformation` returns
`(OPFW version, recognition version, module names)` on success, `none`
when the firmware file is invalid.  `userSelection` is the (0-based)
index the device-selection prompt returns; the prompt's retry loop
guarantees it is in range, which theorems assume where it matters. -/
structure Env where
  argv : List String
  detectedPorts : List String
  queryFwVersion : String → String
  querySerialNumber : String → String
  userSelection : Nat
  extractFwInformation : String → Option (String × String × List String)
  isEncryptionSupported : String → String → Bool
  isFwCompatibleWithHost : String → Bool
  userApprovesUpdate : Bool
  userApprovesClearDb : Bool
  updateModules : List String → Status

/-- `QueryDeviceMetadata`: parse the composite version string when the
query returned one, take the serial number when non-empty, leave the
`"Unknown"` defaults otherwise. -/
def QueryDeviceMetadata (env : Env) (port : String) : DeviceMetadata :=
  let raw := env.queryFwVersion port
  let m : DeviceMetadata := {}
  let m := if raw = "" then m
           else { m with fw_version := ParseFirmwareVersion raw,
                         recognition_version := ParseRecognitionVersion raw }
  let sn := env.querySerialNumber port
  if sn = "" then m else { m with serial_number := sn }

/-- The populated device list: auto-detection over the discovered ports
when no `--port` was given, otherwise the single named port. -/
def devicesInfo (env : Env) (args : CommandLineArgs) : List FullDeviceInfo :=
  if args.serial_port = "" then
    env.detectedPorts.map (fun p => ⟨QueryDeviceMetadata env p, p⟩)
  else
    [⟨QueryDeviceMetadata env args.serial_port, args.serial_port⟩]

/-- The device `main` operates on: index 0 when exactly one device was
found, else the user's selection (in range by the prompt's retry loop). -/
def selectedDevice (env : Env) (args : CommandLineArgs) : FullDeviceInfo :=
  (devicesInfo env args).getD
    (if (devicesInfo env args).length = 1 then 0 else env.userSelection) {}

/-- `is_database_compatible`: plain string equality of the device's and
the image's recognition versions (`main.cc` line 339). -/
def isDatabaseCompatible (current_recognition new_recognition : String) : Bool :=
  current_recognition == new_recognition

/-- What a run produces: the process exit code, the module-name list of
the single `UpdateModules` call (`none` when no update was attempted, so
zero bytes were transmitted), and the ports whose devices were queried
for metadata. -/
structure MainResult where
  exitCode : Nat
  updateCall : Option (List String)
  queriedPorts : List String
deriving Repr, DecidableEq

/-- `bool update_recognition = is_database_compatible || args.auto_approve
? true : false;` followed by the `if (!is_database_compatible)` prompt:
keep `true` when the databases match or `--auto-approve` is set,
otherwise ask the user whether to clear the faceprints database. -/
def updateRecognitionDecision (env : Env) (args : CommandLineArgs)
    (db_compatible : Bool) : Bool :=
  if db_compatible then true
  else if args.auto_approve then true
  else env.userApprovesClearDb

/-- The module list handed to `UpdateModules`: the extracted names, with
every `"RECOG"` entry erased when the recognition module is not to be
updated. -/
def plannedModules (env : Env) (args : CommandLineArgs) (selected : FullDeviceInfo)
    (new_recognition_version : String) (moduleNames : List String) : List String :=
  if updateRecognitionDecision env args
      (isDatabaseCompatible selected.metadata.recognition_version new_recognition_version) then
    moduleNames
  else moduleNames.filter (fun m => m != "RECOG")

/-- The tail of `main` after `ExtractFwInformation` succeeded: the
encryption check, the interactive approval, the host-compatibility gate,
the recognition-module decision and finally `UpdateModules`. -/
def flashModules (env : Env) (args : CommandLineArgs) (selected : FullDeviceInfo)
    (queried : List String) (new_fw_version new_recognition_version : String)
    (moduleNames : List String) : MainResult :=
  if env.isEncryptionSupported args.fw_file selected.metadata.serial_number = false then
    ⟨1, none, queried⟩
  else if args.is_interactive && !env.userApprovesUpdate then ⟨1, none, queried⟩
  else if !env.isFwCompatibleWithHost new_fw_version && !args.force_version then
    ⟨1, none, queried⟩
  else
    ⟨if env.updateModules
          (plannedModules env args selected new_recognition_version moduleNames) = Status.Ok
      then 0 else 1,
     some (plannedModules env args selected new_recognition_version moduleNames), queried⟩

/-- The parsed command line of a run. -/
def cliArgs (env : Env) : CommandLineArgs :=
  ParseCommandLineArgs env.argv

/-- The serial ports whose devices the run queried for metadata. -/
def queriedDevicePorts (env : Env) : List String :=
  (devicesInfo env (cliArgs env)).map (fun d => d.serialPort)

/-- `main` of `tools/rsid-fw-update/main.cc` as a function of the
external world. -/
def mainProgram (env : Env) : MainResult :=
  if (cliArgs env).is_valid then
    if (devicesInfo env (cliArgs env)).length = 0 then ⟨1, none, queriedDevicePorts env⟩
    else
      match env.extractFwInformation (cliArgs env).fw_file with
      | none => ⟨1, none, queriedDevicePorts env⟩
      | some (new_fw, new_recog, moduleNames) =>
        flashModules env (cliArgs env) (selectedDevice env (cliArgs env))
          (queriedDevicePorts env) new_fw new_recog moduleNames
  else ⟨1, none, []⟩

/-- The three pre-transfer checks of claim C1: the image parsed, the
device can decrypt it, and the new firmware is host-compatible or
`--force-version` was given. -/
def checksPass (env : Env) : Bool :=
  match env.extractFwInformation (cliArgs env).fw_file with
  | none => false
  | some (new_fw, _, _) =>
    env.isEncryptionSupported (cliArgs env).fw_file
        (selectedDevice env (cliArgs env)).metadata.serial_number
      && (env.isFwCompatibleWithHost new_fw || (cliArgs env).force_version)

/- ## Host compatibility (spec-modelled)

The implementation of `RealSenseID::IsFwCompatibleWithHost` lives in the
SDK library, outside the sources at hand; `main.cc` only calls it.  It is
modelled here from its specification. -/

def splitOnChar (sep : Char) : List Char → List (List Char)
  | [] => [[]]
  | c :: cs =>
    if c = sep then [] :: splitOnChar sep cs
    else
      match splitOnChar sep cs with
      | [] => [[c]]
      | a :: as => (c :: a) :: as

def parseNat? (l : List Char) : Option Nat :=
  if l = [] then none
  else if l.all (fun c => c.isDigit) then
    some (l.foldl (fun n c => 10 * n + (c.toNat - 48)) 0)
  else none

def parseSemVer (s : String) : Option (Nat × Nat × Nat) :=
  match (splitOnChar '.' s.data).map parseNat? with
  | [some major, some minor, some patch] => some (major, minor, patch)
  | _ => none

def semVerLe (a b : Nat × Nat × Nat) : Bool :=
  decide (a.1 < b.1) ||
    (decide (a.1 = b.1) &&
      (decide (a.2.1 < b.2.1) || (decide (a.2.1 = b.2.1) && decide (a.2.2 ≤ b.2.2))))

def hostEarliestSupported : Nat × Nat × Nat := (0, 13, 0)

def hostLatestSupported : Nat × Nat × Nat := (0, 25, 0)

/-- Modelled from the spec: `RealSenseID::IsFwCompatibleWithHost` (called
by `main.cc`, implemented in the SDK outside these sources) "parses a
semantic version and returns true iff it falls within the host's
supported range; deterministic and idempotent".  The concrete range
endpoints are placeholders; the claims about this function do not depend
on them. -/
def IsFwCompatibleWithHost (versionString : String) : Bool :=
  match parseSemVer versionString with
  | some v => semVerLe hostEarliestSupported v && semVerLe v hostLatestSupported
  | none => false

example : IsFwCompatibleWithHost "0.14.2" = true := by decide
example : IsFwCompatibleWithHost "9.0.0" = false := by decide
example : IsFwCompatibleWithHost "garbage" = false := by decide

/- ## Sanity-check environment -/

/-- A fully successful run: one auto-detected device, valid image,
supported encryption, compatible versions, update succeeds. -/
def envOk : Env where
  argv := ["rsid-fw-update", "--file", "fw.bin"]
  detectedPorts := ["COM1"]
  queryFwVersion := fun _ => "OPFW:1.2.3|RECOG:4.5.6"
  querySerialNumber := fun _ => "SN123"
  userSelection := 0
  extractFwInformation := fun _ => some ("2.0.0", "4.5.6", ["OPFW", "RECOG"])
  isEncryptionSupported := fun _ _ => true
  isFwCompatibleWithHost := fun _ => true
  userApprovesUpdate := true
  userApprovesClearDb := true
  updateModules := fun _ => Status.Ok

example : mainProgram envOk = ⟨0, some ["OPFW", "RECOG"], ["COM1"]⟩ := by decide

/-- A run whose firmware file fails to parse. -/
def envBadFile : Env :=
  { envOk with extractFwInformation := fun _ => none }

example : mainProgram envBadFile = ⟨1, none, ["COM1"]⟩ := by decide

/-- Scenario B of the spec: `--interactive`, recognition versions differ,
the user approves the update but declines clearing the database. -/
def envDecline : Env :=
  { envOk with
      argv := ["rsid-fw-update", "--file", "fw.bin", "--interactive", "--port", "COM7"],
      extractFwInformation := fun _ => some ("2.0.0", "9.9.9", ["OPFW", "RECOG"]),
      userApprovesClearDb := false }

example : mainProgram envDecline = ⟨0, some ["OPFW"], ["COM7"]⟩ := by decide

/- ## Lemmas about the version-string extraction -/

lemma containsSub_iff (n h : List Char) : containsSub n h = true ↔ n <:+: h := by
  unfold containsSub
  rw [List.any_eq_true]
  constructor
  · rintro ⟨t, ht, hp⟩
    exact List.infix_iff_prefix_suffix.mpr
      ⟨t, List.isPrefixOf_iff_prefix.mp hp, (List.mem_tails _ _).mp ht⟩
  · intro hinf
    obtain ⟨t, hp, hs⟩ := List.infix_iff_prefix_suffix.mp hinf
    exact ⟨t, (List.mem_tails _ _).mpr hs, List.isPrefixOf_iff_prefix.mpr hp⟩

lemma containsSub_nil (n : List Char) (h : n ≠ []) : containsSub n [] = false := by
  rw [← Bool.not_eq_true, containsSub_iff]
  simp [h]

lemma extractAux_eq_find (name : List Char) (l : List (List Char)) :
    extractAux name l =
      match l.find? (fun sec => containsSub name sec) with
      | some sec => afterColon sec
      | none => "Unknown".data := by
  induction l with
  | nil => rfl
  | cons sec rest ih =>
    unfold extractAux
    cases hc : containsSub name sec with
    | true => simp [List.find?, hc]
    | false => simp [List.find?, hc, ih]

lemma getlineSplit_pipe_cons (cs : List Char) :
    getlineSplit ('|' :: cs) = [] :: getlineSplit cs := rfl

lemma getlineSplit_cons_ne (c : Char) (cs : List Char) (hc : c ≠ '|') :
    getlineSplit (c :: cs) =
      match getlineSplit cs with
      | [] => [[c]]
      | a :: as => (c :: a) :: as := by
  simp [getlineSplit, hc]

lemma splitPipe_cases (s : List Char) :
    splitPipe s = getlineSplit s ∨ splitPipe s = getlineSplit s ++ [[]] := by
  induction s with
  | nil => right; rfl
  | cons c cs ih =>
    by_cases hc : c = '|'
    · subst hc
      rcases ih with h | h
      · left; simp [splitPipe, getlineSplit, h]
      · right; simp [splitPipe, getlineSplit, h]
    · rcases ih with h | h
      · left
        simp only [splitPipe, getlineSplit, if_neg hc, h]
      · cases hg : getlineSplit cs with
        | nil =>
          left
          simp only [splitPipe, getlineSplit, if_neg hc, h, hg, List.nil_append]
        | cons a as =>
          right
          simp only [splitPipe, getlineSplit, if_neg hc, h, hg, List.cons_append]

lemma getlineSplit_sections_of (s : List Char) :
    (∀ a as, getlineSplit s = a :: as → a <+: s) ∧
      (∀ sec ∈ getlineSplit s, sec <:+: s) := by
  induction s with
  | nil =>
    refine ⟨fun a as h => by simp [getlineSplit] at h, fun sec h => by simp [getlineSplit] at h⟩
  | cons c cs ih =>
    obtain ⟨ihHead, ihAll⟩ := ih
    by_cases hc : c = '|'
    · subst hc
      constructor
      · intro a as h
        rw [getlineSplit_pipe_cons, List.cons.injEq] at h
        exact h.1 ▸ List.nil_prefix
      · intro sec hmem
        rw [getlineSplit_pipe_cons, List.mem_cons] at hmem
        rcases hmem with rfl | hmem
        · exact List.nil_infix
        · exact (ihAll sec hmem).trans (List.infix_cons (List.infix_refl cs))
    · cases hg : getlineSplit cs with
      | nil =>
        constructor
        · intro a as h
          rw [getlineSplit_cons_ne c cs hc, hg, List.cons.injEq] at h
          rw [← h.1]
          simp
        · intro sec hmem
          rw [getlineSplit_cons_ne c cs hc, hg, List.mem_singleton] at hmem
          subst hmem
          exact (by simp : [c] <+: c :: cs).isInfix
      | cons a as =>
        have hpre : c :: a <+: c :: cs := by
          simpa using ihHead a as hg
        constructor
        · intro b bs h
          rw [getlineSplit_cons_ne c cs hc, hg, List.cons.injEq] at h
          rw [← h.1]
          exact hpre
        · intro sec hmem
          rw [getlineSplit_cons_ne c cs hc, hg, List.mem_cons] at hmem
          rcases hmem with rfl | hmem
          · exact hpre.isInfix
          · exact (ihAll sec (hg ▸ List.mem_cons_of_mem a hmem)).trans
              (List.infix_cons (List.infix_refl cs))

lemma sections_not_contains (n s : List Char) (h : containsSub n s = false) :
    ∀ sec ∈ getlineSplit s, containsSub n sec = false := by
  intro sec hmem
  cases hcs : containsSub n sec with
  | false => rfl
  | true =>
    exfalso
    have h1 : n <:+: sec := (containsSub_iff n sec).mp hcs
    have h2 : sec <:+: s := (getlineSplit_sections_of s).2 sec hmem
    have := (containsSub_iff n s).mpr (h1.trans h2)
    rw [h] at this
    exact Bool.false_ne_true this

lemma extract_eq_spec (name full : String) (h : name.data ≠ []) :
    ExtractModuleFromVersion name full = specExtractModule name full := by
  unfold ExtractModuleFromVersion specExtractModule
  rw [extractAux_eq_find]
  rcases splitPipe_cases full.data with hc | hc
  · rw [hc]
    cases (getlineSplit full.data).find? (fun sec => containsSub name.data sec) <;> rfl
  · rw [hc, List.find?_append]
    have hnone : List.find? (fun sec => containsSub name.data sec) [[]] = none := by
      simp [List.find?, containsSub_nil name.data h]
    rw [hnone]
    cases (getlineSplit full.data).find? (fun sec => containsSub name.data sec) <;> rfl

lemma extract_absent (name full : String) (h : containsSub name.data full.data = false) :
    ExtractModuleFromVersion name full = "Unknown" := by
  unfold ExtractModuleFromVersion
  rw [extractAux_eq_find]
  have hnone :
      (getlineSplit full.data).find? (fun sec => containsSub name.data sec) = none := by
    rw [List.find?_eq_none]
    intro sec hmem
    simp [sections_not_contains name.data full.data h sec hmem]
  rw [hnone]

lemma string_data_ne_nil (name : String) (h : name ≠ "") : name.data ≠ [] := by
  intro hd
  apply h
  cases name
  simp_all [String.ext_iff]

/-- Claim C10: for every composite version string, `ExtractModuleFromVersion`
selects the first pipe-separated section containing the searched name as a
substring anywhere in the section, and returns that section's suffix after
its first colon — the entire section when it has no colon — and `"Unknown"`
when no section matches.  Stated as equality with `specExtractModule`, the
direct rendering of that description (for a non-empty searched name; the
program only searches for `"OPFW:"` and `"RECOG:"`). -/
theorem extract_selects_first_substring_section (name full : String) (h : name ≠ "") :
    ExtractModuleFromVersion name full = specExtractModule name full :=
  extract_eq_spec name full (string_data_ne_nil name h)

theorem extract_selects_first_substring_section_witness :
    ("OPFW:" : String) ≠ "" ∧
      ExtractModuleFromVersion "OPFW:" "X:1|OPFW n2|OPFW:3" =
        specExtractModule "OPFW:" "X:1|OPFW n2|OPFW:3" :=
  ⟨by decide, extract_selects_first_substring_section "OPFW:" "X:1|OPFW n2|OPFW:3" (by decide)⟩

/-- Claim C3 counterexample: the claim says extraction returns the substring
after the colon of the *named token*.  On `"PRECOG:7|RECOG:8"` the RECOG
token is `RECOG:8`, so the claim demands `"8"`; the code matches `"RECOG:"`
as a substring of the first section `PRECOG:7` and returns `"7"`. -/
theorem parseRecognition_not_token_based :
    ParseRecognitionVersion "PRECOG:7|RECOG:8" = "7" ∧
      ParseRecognitionVersion "PRECOG:7|RECOG:8" ≠ "8" := by
  constructor
  · decide
  · decide

/-- Claim C3 amended: `ExtractModuleFromVersion`, as used by
`ParseFirmwareVersion` / `ParseRecognitionVersion`, returns the substring
after the first colon of the first pipe-separated section that contains the
searched name, up to the next pipe or the end of the string, and returns
`"Unknown"` whenever the name is absent from the composite string. -/
theorem parseVersions_extract_named_module (full : String) :
    ParseFirmwareVersion full = specExtractModule "OPFW:" full ∧
      ParseRecognitionVersion full = specExtractModule "RECOG:" full ∧
      (containsSub "OPFW:".data full.data = false → ParseFirmwareVersion full = "Unknown") ∧
      (containsSub "RECOG:".data full.data = false →
        ParseRecognitionVersion full = "Unknown") :=
  ⟨extract_eq_spec "OPFW:" full (by decide),
   extract_eq_spec "RECOG:" full (by decide),
   fun h => extract_absent "OPFW:" full h,
   fun h => extract_absent "RECOG:" full h⟩

theorem parseVersions_extract_named_module_witness :
    ParseFirmwareVersion "RECOG:4.5.6" = "Unknown" ∧
      ParseRecognitionVersion "OPFW:1.2.3" = "Unknown" :=
  ⟨(parseVersions_extract_named_module "RECOG:4.5.6").2.2.1 (by decide),
   (parseVersions_extract_named_module "OPFW:1.2.3").2.2.2 (by decide)⟩

/-- Claim C4: database compatibility (`is_database_compatible` in `main`)
holds if and only if the device's current recognition-version string and
the image's new recognition-version string are exactly equal; any
difference is incompatible. -/
theorem database_compatibility_iff_exact_equality
    (current_recognition new_recognition : String) :
    isDatabaseCompatible current_recognition new_recognition = true ↔
      current_recognition = new_recognition := by
  simp [isDatabaseCompatible]

/-- Claim C9: `IsFwCompatibleWithHost` is pure, deterministic and
idempotent — evaluating it any number of times on the same version string
always yields the single boolean it denotes, with no side effects (it is
a function of the string alone). -/
theorem isFwCompatibleWithHost_pure (versionString : String) (n : Nat) :
    (List.replicate n versionString).map IsFwCompatibleWithHost =
      List.replicate n (IsFwCompatibleWithHost versionString) := by
  simp

/- ## Lemmas about the wait loop -/

lemma waitLoop_true_lt (sched : Nat → Bool) (max_wait : Nat) :
    ∀ fuel counter, (waitLoop sched max_wait counter fuel).1 = true →
      counter < (waitLoop sched max_wait counter fuel).2 := by
  intro fuel
  induction fuel with
  | zero => intro counter h; simp [waitLoop] at h
  | succ f ih =>
    intro counter h
    rw [waitLoop] at h ⊢
    by_cases hlt : counter < max_wait
    · rw [if_pos hlt] at h ⊢
      by_cases hs : sched (counter + 1) = true
      · rw [if_pos hs] at h ⊢
        omega
      · rw [if_neg hs] at h ⊢
        exact Nat.lt_of_succ_le (Nat.le_of_lt (ih (counter + 1) h))
    · rw [if_neg hlt] at h
      simp at h

lemma waitLoop_never (sched : Nat → Bool) (max_wait : Nat)
    (hs : ∀ t, t ≤ max_wait → sched t = false) :
    ∀ fuel counter, counter ≤ max_wait →
      waitLoop sched max_wait counter fuel = (false, min max_wait (counter + fuel)) := by
  intro fuel
  induction fuel with
  | zero =>
    intro counter hc
    simp [waitLoop]
    omega
  | succ f ih =>
    intro counter hc
    rw [waitLoop]
    by_cases hlt : counter < max_wait
    · rw [if_pos hlt, hs (counter + 1) (by omega), if_neg (by simp)]
      rw [ih (counter + 1) (by omega)]
      have : min max_wait (counter + 1 + f) = min max_wait (counter + (f + 1)) := by omega
      rw [this]
    · rw [if_neg hlt]
      have : min max_wait (counter + (f + 1)) = counter := by omega
      rw [this]

/-- Claim C2: with bounds min=6 and max=30, for every schedule of device
responsiveness (`sched t` = would a ping issued `t` seconds after the
call answer): `WaitForDevice` never reports the device alive with fewer
than 6 seconds elapsed; when the device is responsive from second 10
onward it returns true at second 10, within one second of that point; and
when the device never answers within the 30-second maximum it returns
false after exactly 30 seconds rather than waiting forever. -/
theorem waitForDevice_bounds :
    (∀ sched : Nat → Bool, (WaitForDevice sched 6 30).1 = true →
      6 ≤ (WaitForDevice sched 6 30).2) ∧
    WaitForDevice (fun t => decide (10 ≤ t)) 6 30 = (true, 10) ∧
    (∀ sched : Nat → Bool, (∀ t, t ≤ 30 → sched t = false) →
      WaitForDevice sched 6 30 = (false, 30)) := by
  refine ⟨fun sched h => ?_, by decide, fun sched hs => ?_⟩
  · exact Nat.le_of_lt (waitLoop_true_lt sched 30 (30 - 6) 6 h)
  · exact waitLoop_never sched 30 hs (30 - 6) 6 (by omega)

theorem waitForDevice_bounds_witness :
    6 ≤ (WaitForDevice (fun t => decide (10 ≤ t)) 6 30).2 ∧
      WaitForDevice (fun _ => false) 6 30 = (false, 30) :=
  ⟨waitForDevice_bounds.1 (fun t => decide (10 ≤ t)) (by decide),
   waitForDevice_bounds.2.2 (fun _ => false) (fun _ _ => rfl)⟩

/- ## Lemmas about argument parsing -/

lemma parseLoop_cons (a : CommandLineArgs) (x : String) (rest : List String) :
    parseLoop a (x :: rest) =
      if x = "--file" then
        match rest with
        | [] => a
        | v :: rest' => parseLoop { a with fw_file := v } rest'
      else if x = "--port" then
        match rest with
        | [] => a
        | v :: rest' => parseLoop { a with serial_port := v } rest'
      else if x = "--force-full" then parseLoop { a with force_full := true } rest
      else if x = "--force-version" then parseLoop { a with force_version := true } rest
      else if x = "--interactive" then parseLoop { a with is_interactive := true } rest
      else if x = "--auto-approve" then parseLoop { a with auto_approve := true } rest
      else parseLoop a rest := by
  rw [parseLoop.eq_def]

lemma parseLoop_is_valid_aux :
    ∀ n l a, l.length ≤ n → (parseLoop a l).is_valid = a.is_valid := by
  intro n
  induction n with
  | zero =>
    intro l a h
    cases l with
    | nil => rfl
    | cons x rest => simp at h
  | succ n ih =>
    intro l a h
    cases l with
    | nil => rfl
    | cons x rest =>
      have hrest : rest.length ≤ n := by simp at h; omega
      by_cases h1 : x = "--file"
      · rw [parseLoop_cons, if_pos h1]
        cases rest with
        | nil => rfl
        | cons w rest' => exact ih rest' _ (by simp at hrest ⊢; omega)
      · by_cases h2 : x = "--port"
        · rw [parseLoop_cons, if_neg h1, if_pos h2]
          cases rest with
          | nil => rfl
          | cons w rest' => exact ih rest' _ (by simp at hrest ⊢; omega)
        · rw [parseLoop_cons, if_neg h1, if_neg h2]
          by_cases h3 : x = "--force-full"
          · rw [if_pos h3]; exact ih rest _ hrest
          · rw [if_neg h3]
            by_cases h4 : x = "--force-version"
            · rw [if_pos h4]; exact ih rest _ hrest
            · rw [if_neg h4]
              by_cases h5 : x = "--interactive"
              · rw [if_pos h5]; exact ih rest _ hrest
              · rw [if_neg h5]
                by_cases h6 : x = "--auto-approve"
                · rw [if_pos h6]; exact ih rest _ hrest
                · rw [if_neg h6]; exact ih rest _ hrest

lemma parseLoop_is_valid (a : CommandLineArgs) (l : List String) :
    (parseLoop a l).is_valid = a.is_valid :=
  parseLoop_is_valid_aux l.length l a (Nat.le_refl _)

/-- Claim C8: `ParseCommandLineArgs` marks the arguments valid iff at
least one argument was given (`argv` holds the program name plus one
more entry), the value captured for `--file` is non-empty, and
`--interactive` and `--auto-approve` are not both present; and an
invalid result makes `main` exit with failure having queried no device
and transmitted nothing. -/
theorem parseArgs_valid_iff :
    (∀ argv : List String, (ParseCommandLineArgs argv).is_valid = true ↔
      (2 ≤ argv.length ∧ (ParseCommandLineArgs argv).fw_file ≠ "" ∧
        ¬((ParseCommandLineArgs argv).is_interactive = true ∧
          (ParseCommandLineArgs argv).auto_approve = true))) ∧
    (∀ env : Env, (ParseCommandLineArgs env.argv).is_valid = false →
      mainProgram env = ⟨1, none, []⟩) := by
  constructor
  · intro argv
    unfold ParseCommandLineArgs
    by_cases hlen : argv.length < 2
    · rw [if_pos hlen]
      simp only [show (({} : CommandLineArgs)).is_valid = false from rfl]
      constructor
      · intro h; exact absurd h (by simp)
      · intro h; omega
    · rw [if_neg hlen]
      by_cases hf : (parseLoop {} (argv.drop 1)).fw_file = ""
      · rw [if_pos hf]
        rw [parseLoop_is_valid]
        simp only [show (({} : CommandLineArgs)).is_valid = false from rfl]
        constructor
        · intro h; exact absurd h (by simp)
        · intro h; exact absurd hf h.2.1
      · rw [if_neg hf]
        by_cases hia : (parseLoop {} (argv.drop 1)).is_interactive &&
            (parseLoop {} (argv.drop 1)).auto_approve
        · rw [if_pos hia]
          rw [parseLoop_is_valid]
          simp only [show (({} : CommandLineArgs)).is_valid = false from rfl]
          constructor
          · intro h; exact absurd h (by simp)
          · intro h
            rcases (Bool.and_eq_true _ _).mp hia with ⟨h1, h2⟩
            exact (h.2.2 ⟨h1, h2⟩).elim
        · rw [if_neg hia]
          constructor
          · intro _
            refine ⟨by omega, hf, ?_⟩
            intro hb
            exact hia ((Bool.and_eq_true _ _).mpr ⟨hb.1, hb.2⟩)
          · intro _; rfl
  · intro env h
    simp [mainProgram, cliArgs, h]

theorem parseArgs_valid_iff_witness :
    (ParseCommandLineArgs ["rsid-fw-update", "--file", "fw.bin"]).is_valid = true ∧
      mainProgram { envOk with argv := ["rsid-fw-update"] } = ⟨1, none, []⟩ :=
  ⟨(parseArgs_valid_iff.1 ["rsid-fw-update", "--file", "fw.bin"]).mpr
      ⟨by decide, by decide, by decide⟩,
   parseArgs_valid_iff.2 { envOk with argv := ["rsid-fw-update"] } (by decide)⟩

/- ## Lemmas about the main control flow -/

lemma parse_valid_mutex (argv : List String)
    (h : (ParseCommandLineArgs argv).is_valid = true) :
    ((ParseCommandLineArgs argv).is_interactive &&
      (ParseCommandLineArgs argv).auto_approve) = false := by
  unfold ParseCommandLineArgs at h ⊢
  by_cases hlen : argv.length < 2
  · rw [if_pos hlen] at h
    exact absurd h (by simp)
  · rw [if_neg hlen] at h ⊢
    by_cases hf : (parseLoop {} (argv.drop 1)).fw_file = ""
    · rw [if_pos hf, parseLoop_is_valid] at h
      exact absurd h (by simp)
    · rw [if_neg hf] at h ⊢
      by_cases hia : ((parseLoop {} (argv.drop 1)).is_interactive &&
          (parseLoop {} (argv.drop 1)).auto_approve) = true
      · rw [if_pos hia, parseLoop_is_valid] at h
        exact absurd h (by simp)
      · rw [if_neg hia]
        exact Bool.eq_false_iff.mpr hia

lemma flashModules_shape (env : Env) (args : CommandLineArgs) (selected : FullDeviceInfo)
    (queried : List String) (f r : String) (mods : List String) :
    (flashModules env args selected queried f r mods = ⟨1, none, queried⟩) ∨
    (env.isEncryptionSupported args.fw_file selected.metadata.serial_number = true ∧
      (env.isFwCompatibleWithHost f = true ∨ args.force_version = true) ∧
      flashModules env args selected queried f r mods =
        ⟨if env.updateModules (plannedModules env args selected r mods) = Status.Ok
           then 0 else 1,
         some (plannedModules env args selected r mods), queried⟩) := by
  unfold flashModules
  by_cases henc : env.isEncryptionSupported args.fw_file selected.metadata.serial_number = false
  · left; rw [if_pos henc]
  · rw [if_neg henc]
    by_cases hint : (args.is_interactive && !env.userApprovesUpdate) = true
    · left; rw [if_pos hint]
    · rw [if_neg hint]
      by_cases hver : (!env.isFwCompatibleWithHost f && !args.force_version) = true
      · left; rw [if_pos hver]
      · rw [if_neg hver]
        right
        refine ⟨?_, ?_, rfl⟩
        · simpa using henc
        · by_cases hc : env.isFwCompatibleWithHost f = true
          · exact Or.inl hc
          · have himp : env.isFwCompatibleWithHost f = false → args.force_version = true := by
              simpa using hver
            exact Or.inr (himp (Bool.eq_false_iff.mpr hc))

lemma mainProgram_shape (env : Env) :
    ((mainProgram env).exitCode = 1 ∧ (mainProgram env).updateCall = none) ∨
    (∃ new_fw new_recog moduleNames,
      env.extractFwInformation (cliArgs env).fw_file =
        some (new_fw, new_recog, moduleNames) ∧
      env.isEncryptionSupported (cliArgs env).fw_file
        (selectedDevice env (cliArgs env)).metadata.serial_number = true ∧
      (env.isFwCompatibleWithHost new_fw = true ∨ (cliArgs env).force_version = true) ∧
      (mainProgram env).updateCall =
        some (plannedModules env (cliArgs env) (selectedDevice env (cliArgs env))
          new_recog moduleNames) ∧
      (mainProgram env).exitCode =
        if env.updateModules (plannedModules env (cliArgs env)
            (selectedDevice env (cliArgs env)) new_recog moduleNames) = Status.Ok
          then 0 else 1) := by
  by_cases hv : (cliArgs env).is_valid = true
  · by_cases h0 : (devicesInfo env (cliArgs env)).length = 0
    · left
      unfold mainProgram
      rw [if_pos hv, if_pos h0]
      exact ⟨rfl, rfl⟩
    · cases hext : env.extractFwInformation (cliArgs env).fw_file with
      | none =>
        left
        unfold mainProgram
        rw [if_pos hv, if_neg h0, hext]
        exact ⟨rfl, rfl⟩
      | some triple =>
        obtain ⟨f, r, mods⟩ := triple
        have hred : mainProgram env =
            flashModules env (cliArgs env) (selectedDevice env (cliArgs env))
              (queriedDevicePorts env) f r mods := by
          unfold mainProgram
          rw [if_pos hv, if_neg h0, hext]
        rcases flashModules_shape env (cliArgs env) (selectedDevice env (cliArgs env))
            (queriedDevicePorts env) f r mods with hfail | ⟨henc, hcmp, hok⟩
        · left
          rw [hred, hfail]
          exact ⟨rfl, rfl⟩
        · right
          exact ⟨f, r, mods, rfl, henc, hcmp, by rw [hred, hok], by rw [hred, hok]⟩
  · left
    unfold mainProgram
    rw [if_neg hv]
    exact ⟨rfl, rfl⟩

lemma plannedModules_cases (env : Env) (args : CommandLineArgs) (selected : FullDeviceInfo)
    (r : String) (mods : List String) :
    plannedModules env args selected r mods = mods ∨
      plannedModules env args selected r mods = mods.filter (fun m => m != "RECOG") := by
  unfold plannedModules
  by_cases h : updateRecognitionDecision env args
      (isDatabaseCompatible selected.metadata.recognition_version r) = true
  · left; rw [if_pos h]
  · right; rw [if_neg h]

/-- Claim C1: `UpdateModules` is never invoked (no bytes are transmitted)
unless all pre-transfer checks passed: `ExtractFwInformation` succeeded,
`IsEncryptionSupported` returned true, and the new firmware is
host-compatible or `--force-version` was given; when any of these checks
fails the process exits with failure without any transfer. -/
theorem update_requires_pretransfer_checks (env : Env) :
    ((mainProgram env).updateCall.isSome = true → checksPass env = true) ∧
    (checksPass env = false →
      (mainProgram env).exitCode = 1 ∧ (mainProgram env).updateCall = none) := by
  rcases mainProgram_shape env with ⟨h1, h2⟩ | ⟨f, r, mods, hext, henc, hcmp, hcall, _⟩
  · constructor
    · intro hs
      rw [h2] at hs
      simp at hs
    · intro _
      exact ⟨h1, h2⟩
  · have hcp : checksPass env = true := by
      rcases hcmp with hc | hc <;> simp [checksPass, hext, henc, hc]
    refine ⟨fun _ => hcp, fun hf => ?_⟩
    rw [hcp] at hf
    exact absurd hf (by simp)

theorem update_requires_pretransfer_checks_witness :
    checksPass envOk = true ∧
      (mainProgram envBadFile).exitCode = 1 ∧ (mainProgram envBadFile).updateCall = none :=
  ⟨(update_requires_pretransfer_checks envOk).1 (by decide),
   (update_requires_pretransfer_checks envBadFile).2 (by decide)⟩

/-- Claim C5: the process exit code is 0 iff `UpdateModules` was invoked
and returned `Status.Ok`; every other path exits with code 1 (the exit
code is always 0 or 1). -/
theorem exit_zero_iff_update_ok (env : Env) :
    ((mainProgram env).exitCode = 0 ↔
      ∃ ms, (mainProgram env).updateCall = some ms ∧ env.updateModules ms = Status.Ok) ∧
    ((mainProgram env).exitCode = 0 ∨ (mainProgram env).exitCode = 1) := by
  rcases mainProgram_shape env with ⟨h1, h2⟩ | ⟨f, r, mods, hext, henc, hcmp, hcall, hexit⟩
  · constructor
    · rw [h1, h2]
      simp
    · right; exact h1
  · by_cases hok : env.updateModules (plannedModules env (cliArgs env)
        (selectedDevice env (cliArgs env)) r mods) = Status.Ok
    · rw [hexit, hcall, if_pos hok]
      constructor
      · simp [hok]
      · left; rfl
    · rw [hexit, hcall, if_neg hok]
      constructor
      · simp [hok]
      · right; rfl

/-- Claim C7: the module names passed to `UpdateModules` always form a
subsequence (hence a subset) of the module names extracted from the same
image file by `ExtractFwInformation`: entries may only be removed (the
RECOG exclusion), never added. -/
theorem plan_sublist_of_image (env : Env) (ms : List String)
    (h : (mainProgram env).updateCall = some ms) :
    ∃ new_fw new_recog moduleNames,
      env.extractFwInformation (cliArgs env).fw_file =
        some (new_fw, new_recog, moduleNames) ∧
      List.Sublist ms moduleNames := by
  rcases mainProgram_shape env with ⟨_, h2⟩ | ⟨f, r, mods, hext, henc, hcmp, hcall, _⟩
  · rw [h2] at h
    cases h
  · rw [hcall] at h
    obtain rfl : ms = plannedModules env (cliArgs env) (selectedDevice env (cliArgs env))
        r mods := (Option.some.injEq _ _ ▸ h).symm
    refine ⟨f, r, mods, hext, ?_⟩
    rcases plannedModules_cases env (cliArgs env) (selectedDevice env (cliArgs env))
        r mods with hp | hp
    · rw [hp]
    · rw [hp]
      exact List.filter_sublist mods

theorem plan_sublist_of_image_witness :
    ∃ new_fw new_recog moduleNames,
      envDecline.extractFwInformation (cliArgs envDecline).fw_file =
        some (new_fw, new_recog, moduleNames) ∧
      List.Sublist ["OPFW"] moduleNames :=
  plan_sublist_of_image envDecline ["OPFW"] (by decide)

/-- Claim C6: when the recognition versions differ, the run is
interactive, the user approves the update but declines clearing the
faceprints database, every `"RECOG"` entry is removed from the module
list before `UpdateModules` is called while all other extracted module
names are kept unchanged in their original relative order (the plan is
`List.filter` of the extracted names by `m != "RECOG"`). -/
theorem decline_filters_recog (env : Env) (new_fw new_recog : String) (mods : List String)
    (hvalid : (cliArgs env).is_valid = true)
    (hinter : (cliArgs env).is_interactive = true)
    (happrove : env.userApprovesUpdate = true)
    (hdev : ¬(devicesInfo env (cliArgs env)).length = 0)
    (hext : env.extractFwInformation (cliArgs env).fw_file = some (new_fw, new_recog, mods))
    (henc : env.isEncryptionSupported (cliArgs env).fw_file
        (selectedDevice env (cliArgs env)).metadata.serial_number = true)
    (hcmp : env.isFwCompatibleWithHost new_fw = true ∨ (cliArgs env).force_version = true)
    (hdiff : (selectedDevice env (cliArgs env)).metadata.recognition_version ≠ new_recog)
    (hdecline : env.userApprovesClearDb = false) :
    (mainProgram env).updateCall = some (mods.filter (fun m => m != "RECOG")) := by
  have hauto : (cliArgs env).auto_approve = false := by
    have hm : ((cliArgs env).is_interactive && (cliArgs env).auto_approve) = false :=
      parse_valid_mutex env.argv hvalid
    rw [hinter] at hm
    simpa using hm
  have hred : mainProgram env =
      flashModules env (cliArgs env) (selectedDevice env (cliArgs env))
        (queriedDevicePorts env) new_fw new_recog mods := by
    unfold mainProgram
    rw [if_pos hvalid, if_neg hdev, hext]
  have hdb : isDatabaseCompatible
      (selectedDevice env (cliArgs env)).metadata.recognition_version new_recog = false := by
    unfold isDatabaseCompatible
    exact beq_eq_false_iff_ne.mpr hdiff
  rw [hred]
  unfold flashModules
  rw [if_neg (show ¬(env.isEncryptionSupported (cliArgs env).fw_file
      (selectedDevice env (cliArgs env)).metadata.serial_number = false) by simp [henc])]
  rw [if_neg (show ¬(((cliArgs env).is_interactive && !env.userApprovesUpdate) = true) by
    simp [happrove])]
  rw [if_neg (show ¬((!env.isFwCompatibleWithHost new_fw &&
      !(cliArgs env).force_version) = true) by rcases hcmp with h | h <;> simp [h])]
  simp [plannedModules, updateRecognitionDecision, hdb, hauto, hdecline]

theorem decline_filters_recog_witness :
    (mainProgram envDecline).updateCall =
      some (["OPFW", "RECOG"].filter (fun m => m != "RECOG")) :=
  decline_filters_recog envDecline "2.0.0" "9.9.9" ["OPFW", "RECOG"]
    (by decide) (by decide) rfl (by decide) rfl rfl (Or.inl rfl) (by decide) rfl
